import Mathlib

/-!
Verification of the reference-counted smart-pointer implementation in
`src/smart_pointers.h` (classes `BaseControlBlock`, `ControlBlockRegular`,
`ControlBlockMakeShared`, `SharedPtr`, `WeakPtr`).

The embedding is shallow and single-threaded, matching the source's
sequential model.  A control block is a record carrying the two reference
counts, the raw pointer that `get_ptr` returns, and two ghost fields that
record the observable destruction events: `destroyArgs` lists, in order,
the argument each invocation of `destroy_ptr` handed to the destruction
policy, and `deallocCalls` counts the invocations of `deallocate_block`.
Pointers and block addresses are abstracted as natural numbers; a null
pointer is `none`.  Operations whose C++ body dereferences the block
pointer unconditionally (so that a null block is undefined behaviour)
return `Option`; operations that test for null first are total.

Two views of the code are proved against each other:
* heap-level operations (`Heap := Nat → BaseControlBlock`) that translate
  each member function body literally, and
* a single-block trace machine (`TraceState`, `stepOp`, `Reachable`) whose
  steps are exactly the count-mutating owner operations, used for the
  whole-lifecycle invariants.
-/

namespace SmartPointers

/-- Which concrete subclass of `BaseControlBlock` a block was created as:
`ControlBlockRegular` (separate allocation, lines 20-40) or
`ControlBlockMakeShared` (combined allocation, lines 42-65). -/
inductive BlockKind where
  | regular
  | makeShared
deriving DecidableEq

/-- Model of a control block (`BaseControlBlock`, lines 7-18, together with
the data of its concrete subclass).  `ptr` is what `get_ptr` returns: for a
regular block the stored raw pointer (set to null by `destroy_ptr`, line 30),
for a make-shared block the address of the embedded `object` (never nulled).
`destroyArgs` and `deallocCalls` are ghost observation fields recording the
calls to `destroy_ptr` (with the pointer value passed to the destruction
policy) and to `deallocate_block`. -/
structure BaseControlBlock where
  kind : BlockKind
  shared_count : Nat
  weak_count : Nat
  ptr : Option Nat
  destroyArgs : List (Option Nat)
  deallocCalls : Nat
deriving DecidableEq

/-- Model of `destroy_ptr` (lines 28-31 for the regular block: `del(ptr);
ptr = nullptr;`, and lines 51-53 for the make-shared block: destroy the
embedded object in place, leaving `&object` unchanged).  The ghost field
records the argument the destruction policy received. -/
def BaseControlBlock.destroy_ptr (b : BaseControlBlock) : BaseControlBlock :=
  match b.kind with
  | .regular => { b with destroyArgs := b.destroyArgs ++ [b.ptr], ptr := none }
  | .makeShared => { b with destroyArgs := b.destroyArgs ++ [b.ptr] }

/-- Model of `get_ptr` (lines 37-39 and 62-64). -/
def BaseControlBlock.get_ptr (b : BaseControlBlock) : Option Nat := b.ptr

/-- Model of `deallocate_block` (lines 33-35 and 55-60): frees the block's
own storage; the ghost counter records the call. -/
def BaseControlBlock.deallocate_block (b : BaseControlBlock) : BaseControlBlock :=
  { b with deallocCalls := b.deallocCalls + 1 }

/-- The store of control blocks, addressed by natural numbers. -/
def Heap : Type := Nat → BaseControlBlock

/-- Pointwise update of the heap at one block address. -/
def Heap.update (h : Heap) (i : Nat) (b : BaseControlBlock) : Heap :=
  fun j => if j = i then b else h j

/-- Effect of `SharedPtr::~SharedPtr` (lines 191-200) on the block the
owner is bound to: decrement `shared_count`; if it is still nonzero stop;
otherwise run `destroy_ptr`, and if `weak_count` is zero also run
`deallocate_block`. -/
def sharedDtorBlock (b : BaseControlBlock) : BaseControlBlock :=
  let b1 := { b with shared_count := b.shared_count - 1 }
  if b1.shared_count ≠ 0 then b1
  else
    let b2 := b1.destroy_ptr
    if b2.weak_count = 0 then b2.deallocate_block else b2

/-- Effect of `WeakPtr::~WeakPtr` (lines 289-296) on the block the observer
is bound to: decrement `weak_count`; if both counts are now zero run
`deallocate_block`. -/
def weakDtorBlock (b : BaseControlBlock) : BaseControlBlock :=
  let b1 := { b with weak_count := b.weak_count - 1 }
  if b1.shared_count = 0 ∧ b1.weak_count = 0 then b1.deallocate_block else b1

/-- Model of `SharedPtr<T>` (lines 67-201): a typed object pointer and a
block pointer, both possibly null. -/
structure SharedPtr where
  ptr : Option Nat
  block : Option Nat
deriving DecidableEq

/-- Model of `WeakPtr<T>` (lines 204-298): a block pointer only. -/
structure WeakPtr where
  block : Option Nat
deriving DecidableEq

/-- Model of `SharedPtr::~SharedPtr` (lines 191-200): `if (block == nullptr) return;`
then the block-level protocol. -/
def SharedPtr.dtor (sp : SharedPtr) (h : Heap) : Heap :=
  match sp.block with
  | none => h
  | some i => h.update i (sharedDtorBlock (h i))

/-- Model of `WeakPtr::~WeakPtr` (lines 289-296): `if (block == nullptr) return;`
then the block-level protocol. -/
def WeakPtr.dtor (w : WeakPtr) (h : Heap) : Heap :=
  match w.block with
  | none => h
  | some i => h.update i (weakDtorBlock (h i))

/-- Model of the `SharedPtr` copy constructor (lines 120-122): copy both fields, and
increment `shared_count` only when the source block is non-null. -/
def SharedPtr.copyCtor (other : SharedPtr) (h : Heap) : SharedPtr × Heap :=
  match other.block with
  | none => (⟨other.ptr, none⟩, h)
  | some i =>
      (⟨other.ptr, some i⟩,
       h.update i { h i with shared_count := (h i).shared_count + 1 })

/-- Model of the `SharedPtr` move constructor (lines 129-132): take both fields, null the
source, touch no count.  Returns (new owner, moved-from source, heap). -/
def SharedPtr.moveCtor (other : SharedPtr) (h : Heap) :
    SharedPtr × SharedPtr × Heap :=
  (⟨other.ptr, other.block⟩, ⟨none, none⟩, h)

/-- Model of `SharedPtr::use_count` (lines 103-105): `block->shared_count`, undefined
(`none`) on a null block. -/
def SharedPtr.use_count (sp : SharedPtr) (h : Heap) : Option Nat :=
  sp.block.map (fun i => (h i).shared_count)

/-- Model of `SharedPtr` move assignment (lines 157-161): construct a temporary by
move from `other`, swap it with `*this`, and destroy the temporary (which
now holds the previous state of `*this`) at end of scope.  Returns
(new `*this`, moved-from `other`, heap). -/
def SharedPtr.moveAssign (self other : SharedPtr) (h : Heap) :
    SharedPtr × SharedPtr × Heap :=
  (⟨other.ptr, other.block⟩, ⟨none, none⟩, SharedPtr.dtor self h)

/-- Model of the `WeakPtr` copy constructor (lines 237-239): `block(weak.block)` then an
unconditional `block->weak_count++`, so a null source is undefined
behaviour (`none`). -/
def WeakPtr.copyCtor (other : WeakPtr) (h : Heap) : Option (WeakPtr × Heap) :=
  match other.block with
  | none => none
  | some i =>
      some (⟨some i⟩,
            h.update i { h i with weak_count := (h i).weak_count + 1 })

/-- Model of the `WeakPtr` move constructor (lines 246-248): take the block, null the
source, touch no count. -/
def WeakPtr.moveCtor (other : WeakPtr) (h : Heap) :
    WeakPtr × WeakPtr × Heap :=
  (⟨other.block⟩, ⟨none⟩, h)

/-- Model of `WeakPtr` move assignment (lines 268-272).  The body is `auto copy =
other; swap(copy);`: since `other` is a named rvalue reference it is an
lvalue, so `auto copy = other` invokes the COPY constructor, incrementing
`weak_count` of the source's block and leaving the source bound; the
temporary (holding the previous state of `*this`) is destroyed at end of
scope.  Returns (new `*this`, `other` after the call, heap). -/
def WeakPtr.moveAssign (self other : WeakPtr) (h : Heap) :
    Option (WeakPtr × WeakPtr × Heap) :=
  match WeakPtr.copyCtor other h with
  | none => none
  | some (copy, h1) => some (copy, other, WeakPtr.dtor self h1)

/-- Model of `WeakPtr::expired` (lines 281-283): `block->shared_count == 0`,
undefined (`none`) on a null block. -/
def WeakPtr.expired (w : WeakPtr) (h : Heap) : Option Bool :=
  w.block.map (fun i => (h i).shared_count == 0)

/-- Model of the `SharedPtr` constructor from a `WeakPtr` (lines 140-142):
`ptr = block->get_ptr()`, share the block, `shared_count++`; undefined on a
null block. -/
def SharedPtr.ctorFromWeak (w : WeakPtr) (h : Heap) :
    Option (SharedPtr × Heap) :=
  match w.block with
  | none => none
  | some i =>
      some (⟨(h i).get_ptr, some i⟩,
            h.update i { h i with shared_count := (h i).shared_count + 1 })

/-- Model of `WeakPtr::lock` (lines 285-287): `expired() ? SharedPtr() :
SharedPtr(*this)`. -/
def WeakPtr.lock (w : WeakPtr) (h : Heap) : Option (SharedPtr × Heap) :=
  match w.expired h with
  | none => none
  | some true => some (⟨none, none⟩, h)
  | some false => SharedPtr.ctorFromWeak w h

/-- Model of the `SharedPtr` constructor from a raw pointer (lines 93-101).  The first
fallible step is the allocator's `allocate`, modelled by the `alloc`
argument (`Except.error` = allocator failure, `Except.ok i` = storage at
block address `i`).  On failure the exception propagates before anything
is constructed, so the heap is returned untouched; on success the block is
placement-constructed with both counts zero and then `shared_count++`
runs. -/
def SharedPtr.ctorFromRaw (p : Nat) (alloc : Except Unit Nat) (h : Heap) :
    Except Unit SharedPtr × Heap :=
  match alloc with
  | .error e => (.error e, h)
  | .ok i =>
      let b0 : BaseControlBlock := ⟨.regular, 0, 0, some p, [], 0⟩
      (.ok ⟨some p, some i⟩,
       h.update i { b0 with shared_count := b0.shared_count + 1 })

/-- Model of the `SharedPtr` combined-allocation constructor (lines 108-118), used by
`allocateShared`/`makeShared` (lines 300-308).  `allocate` is the first
fallible step; on success the block is constructed with the object
embedded (its address is modelled as the block address `i`, which is what
`get_ptr` returns) and then `shared_count++` runs. -/
def SharedPtr.ctorAllocateShared (alloc : Except Unit Nat) (h : Heap) :
    Except Unit SharedPtr × Heap :=
  match alloc with
  | .error e => (.error e, h)
  | .ok i =>
      let b0 : BaseControlBlock := ⟨.makeShared, 0, 0, some i, [], 0⟩
      (.ok ⟨some i, some i⟩,
       h.update i { b0 with shared_count := b0.shared_count + 1 })

/-! ### Single-block trace machine

For the whole-lifecycle claims we follow one control block from its
creation through an arbitrary valid sequence of owner operations.
`liveS` / `liveW` are the ghost numbers of live strong owners and live
weak observers bound to the block; each step applies to the block exactly
the count mutation the corresponding member function performs. -/

/-- One owner operation on the block.  `copyStrong` covers the strong copy
and converting-copy constructors (lines 120-127); `moveStrong` and
`moveWeak` the move constructors (lines 129-138, 246-253), which rebind an
owner without touching the block; `ctorWeak` covers `WeakPtr` construction
from a live strong owner or copy from a live observer (lines 220-222,
232-244); `lockWeak` is `WeakPtr::lock` (lines 285-287); the two `dtor`
operations are the destructors (lines 191-200, 289-296). -/
inductive Op where
  | copyStrong
  | moveStrong
  | dtorStrong
  | ctorWeak
  | moveWeak
  | dtorWeak
  | lockWeak
deriving DecidableEq

/-- Ghost trace state: live-owner counters plus the block itself. -/
structure TraceState where
  liveS : Nat
  liveW : Nat
  cb : BaseControlBlock
deriving DecidableEq

/-- State right after the block-creating constructor (lines 93-101 or
108-118) returned: one live strong owner, `shared_count = 1`, and the
object pointer registered. -/
def initState (k : BlockKind) (p : Nat) : TraceState :=
  ⟨1, 0, ⟨k, 1, 0, some p, [], 0⟩⟩

/-- An operation is valid when the owner it reads from is actually alive:
copies and destructions need a live source, and a weak observer is created
from a live strong owner or a live observer. -/
def validOp (s : TraceState) : Op → Prop
  | .copyStrong => 0 < s.liveS
  | .moveStrong => 0 < s.liveS
  | .dtorStrong => 0 < s.liveS
  | .ctorWeak => 0 < s.liveS ∨ 0 < s.liveW
  | .moveWeak => 0 < s.liveW
  | .dtorWeak => 0 < s.liveW
  | .lockWeak => 0 < s.liveW

/-- Step function: each case performs on `cb` exactly what the member
function's body performs on `*block`, and adjusts the ghost live
counters accordingly.  A move transfers a binding without touching the
block; `lock` on an expired block returns an empty owner and changes
nothing. -/
def stepOp (s : TraceState) : Op → TraceState
  | .copyStrong =>
      ⟨s.liveS + 1, s.liveW,
       { s.cb with shared_count := s.cb.shared_count + 1 }⟩
  | .moveStrong => s
  | .dtorStrong => ⟨s.liveS - 1, s.liveW, sharedDtorBlock s.cb⟩
  | .ctorWeak =>
      ⟨s.liveS, s.liveW + 1,
       { s.cb with weak_count := s.cb.weak_count + 1 }⟩
  | .moveWeak => s
  | .dtorWeak => ⟨s.liveS, s.liveW - 1, weakDtorBlock s.cb⟩
  | .lockWeak =>
      if s.cb.shared_count = 0 then s
      else ⟨s.liveS + 1, s.liveW,
            { s.cb with shared_count := s.cb.shared_count + 1 }⟩

/-- States reachable from block creation by valid operations. -/
inductive Reachable (k : BlockKind) (p : Nat) : TraceState → Prop where
  | here : Reachable k p (initState k p)
  | there : ∀ s op, Reachable k p s → validOp s op →
      Reachable k p (stepOp s op)

/-- The lifecycle invariant: the counts mirror the live owners, the
destruction policy has run exactly once as soon as (and only when) the
last strong owner is gone, and the block storage has been freed exactly
once as soon as (and only when) both sides are gone. -/
def Inv (k : BlockKind) (p : Nat) (s : TraceState) : Prop :=
  s.cb.kind = k ∧
  s.cb.shared_count = s.liveS ∧
  s.cb.weak_count = s.liveW ∧
  (0 < s.liveS → s.cb.destroyArgs = [] ∧ s.cb.ptr = some p) ∧
  (s.liveS = 0 → s.cb.destroyArgs = [some p] ∧
      s.cb.ptr = (match k with | .regular => none | .makeShared => some p)) ∧
  s.cb.deallocCalls = (if s.liveS = 0 ∧ s.liveW = 0 then 1 else 0)

/-- Concrete sample block: one strong owner, one observer, object at 10. -/
def wb0 : BaseControlBlock := ⟨BlockKind.regular, 1, 1, some 10, [], 0⟩

/-- Concrete sample block: two strong owners, one observer, object at 11. -/
def wb1 : BaseControlBlock := ⟨BlockKind.regular, 2, 1, some 11, [], 0⟩

/-- Concrete two-block heap used by the closed witness theorems. -/
def sampleHeap : Heap := fun j => if j = 0 then wb0 else wb1

/-- Concrete trace: create a block at 5 and destroy its only strong owner. -/
def c1state : TraceState := stepOp (initState BlockKind.regular 5) Op.dtorStrong

/-- Concrete trace: create a block at 5, add an observer, destroy the last
strong owner; the observer is still alive. -/
def c6state : TraceState :=
  stepOp (stepOp (initState BlockKind.regular 5) Op.ctorWeak) Op.dtorStrong

/-- Heap placing `c6state`'s block at every address, for witness use. -/
def c6heap : Heap := fun _ => c6state.cb

/-- Heap placing the freshly created block at every address. -/
def c3heap : Heap := fun _ => (initState BlockKind.regular 5).cb

/-- Concrete trace: create a block at 7 and destroy its only strong owner. -/
def c8state : TraceState := stepOp (initState BlockKind.regular 7) Op.dtorStrong

/-- Default value used to project out of an optional move-assignment result. -/
def mvDefault : WeakPtr × WeakPtr × Heap := (⟨none⟩, ⟨none⟩, sampleHeap)

theorem Heap.update_self (h : Heap) (i : Nat) (b : BaseControlBlock) :
    Heap.update h i b i = b := by
  simp [Heap.update]

theorem Heap.update_ne (h : Heap) (j : Nat) (b : BaseControlBlock) (i : Nat)
    (hne : i ≠ j) : Heap.update h j b i = h i := by
  simp [Heap.update, hne]

theorem destroy_ptr_kind (b : BaseControlBlock) :
    (BaseControlBlock.destroy_ptr b).kind = b.kind := by
  rcases b with ⟨ck, sc, wc, cp, ca, cd⟩
  cases ck <;> rfl

theorem destroy_ptr_shared_count (b : BaseControlBlock) :
    (BaseControlBlock.destroy_ptr b).shared_count = b.shared_count := by
  rcases b with ⟨ck, sc, wc, cp, ca, cd⟩
  cases ck <;> rfl

theorem destroy_ptr_weak_count (b : BaseControlBlock) :
    (BaseControlBlock.destroy_ptr b).weak_count = b.weak_count := by
  rcases b with ⟨ck, sc, wc, cp, ca, cd⟩
  cases ck <;> rfl

theorem destroy_ptr_deallocCalls (b : BaseControlBlock) :
    (BaseControlBlock.destroy_ptr b).deallocCalls = b.deallocCalls := by
  rcases b with ⟨ck, sc, wc, cp, ca, cd⟩
  cases ck <;> rfl

theorem destroy_ptr_destroyArgs (b : BaseControlBlock) :
    (BaseControlBlock.destroy_ptr b).destroyArgs = b.destroyArgs ++ [b.ptr] := by
  rcases b with ⟨ck, sc, wc, cp, ca, cd⟩
  cases ck <;> rfl

/-- Branch-free characterization of the strong-destructor block protocol. -/
theorem sharedDtorBlock_eq (ck : BlockKind) (sc wc : Nat) (cp : Option Nat)
    (ca : List (Option Nat)) (cd : Nat) :
    sharedDtorBlock ⟨ck, sc, wc, cp, ca, cd⟩ =
      if sc - 1 ≠ 0 then ⟨ck, sc - 1, wc, cp, ca, cd⟩
      else if wc = 0 then
        (BaseControlBlock.destroy_ptr ⟨ck, sc - 1, wc, cp, ca, cd⟩).deallocate_block
      else BaseControlBlock.destroy_ptr ⟨ck, sc - 1, wc, cp, ca, cd⟩ := by
  simp only [sharedDtorBlock, destroy_ptr_weak_count]

/-- Branch-free characterization of the weak-destructor block protocol. -/
theorem weakDtorBlock_eq (ck : BlockKind) (sc wc : Nat) (cp : Option Nat)
    (ca : List (Option Nat)) (cd : Nat) :
    weakDtorBlock ⟨ck, sc, wc, cp, ca, cd⟩ =
      if sc = 0 ∧ wc - 1 = 0 then ⟨ck, sc, wc - 1, cp, ca, cd + 1⟩
      else ⟨ck, sc, wc - 1, cp, ca, cd⟩ := by
  simp only [weakDtorBlock, BaseControlBlock.deallocate_block]

theorem inv_init (k : BlockKind) (p : Nat) : Inv k p (initState k p) :=
  ⟨rfl, rfl, rfl, fun _ => ⟨rfl, rfl⟩, fun h => absurd h Nat.one_ne_zero, rfl⟩

theorem inv_step (k : BlockKind) (p : Nat) (s : TraceState) (op : Op)
    (hInv : Inv k p s) (hv : validOp s op) : Inv k p (stepOp s op) := by
  obtain ⟨L, W, ck, sc, wc, cp, ca, cd⟩ := s
  obtain ⟨hk, hs, hw, hpos, hzero, hd⟩ := hInv
  simp only at hk hs hw hpos hzero hd
  subst hk
  subst hs
  subst hw
  cases op with
  | copyStrong =>
      have hv' : 0 < sc := hv
      refine ⟨rfl, rfl, rfl, fun _ => hpos hv', fun h => absurd h (Nat.succ_ne_zero sc), ?_⟩
      show cd = if sc + 1 = 0 ∧ wc = 0 then 1 else 0
      rw [hd, if_neg (show ¬(sc = 0 ∧ wc = 0) by omega),
        if_neg (show ¬(sc + 1 = 0 ∧ wc = 0) by omega)]
  | moveStrong =>
      exact ⟨rfl, rfl, rfl, hpos, hzero, hd⟩
  | dtorStrong =>
      have hv' : 0 < sc := hv
      obtain ⟨hargs, hptr⟩ := hpos hv'
      subst hargs
      subst hptr
      have hcd : cd = 0 := by
        rw [hd, if_neg (show ¬(sc = 0 ∧ wc = 0) by omega)]
      subst hcd
      simp only [stepOp, sharedDtorBlock_eq]
      split_ifs with h1 h2
      · exact ⟨rfl, rfl, rfl, fun _ => ⟨rfl, rfl⟩, fun h => absurd h h1, by
          show (0:Nat) = if sc - 1 = 0 ∧ wc = 0 then 1 else 0
          rw [if_neg (show ¬(sc - 1 = 0 ∧ wc = 0) by omega)]⟩
      · cases ck with
        | regular =>
            refine ⟨rfl, rfl, rfl, fun h => absurd h (show ¬(0 < sc - 1) by omega),
              fun _ => ⟨rfl, rfl⟩, ?_⟩
            show (1:Nat) = if sc - 1 = 0 ∧ wc = 0 then 1 else 0
            rw [if_pos (show sc - 1 = 0 ∧ wc = 0 by omega)]
        | makeShared =>
            refine ⟨rfl, rfl, rfl, fun h => absurd h (show ¬(0 < sc - 1) by omega),
              fun _ => ⟨rfl, rfl⟩, ?_⟩
            show (1:Nat) = if sc - 1 = 0 ∧ wc = 0 then 1 else 0
            rw [if_pos (show sc - 1 = 0 ∧ wc = 0 by omega)]
      · cases ck with
        | regular =>
            refine ⟨rfl, rfl, rfl, fun h => absurd h (show ¬(0 < sc - 1) by omega),
              fun _ => ⟨rfl, rfl⟩, ?_⟩
            show (0:Nat) = if sc - 1 = 0 ∧ wc = 0 then 1 else 0
            rw [if_neg (show ¬(sc - 1 = 0 ∧ wc = 0) by omega)]
        | makeShared =>
            refine ⟨rfl, rfl, rfl, fun h => absurd h (show ¬(0 < sc - 1) by omega),
              fun _ => ⟨rfl, rfl⟩, ?_⟩
            show (0:Nat) = if sc - 1 = 0 ∧ wc = 0 then 1 else 0
            rw [if_neg (show ¬(sc - 1 = 0 ∧ wc = 0) by omega)]
  | ctorWeak =>
      have hv' : 0 < sc ∨ 0 < wc := hv
      refine ⟨rfl, rfl, rfl, hpos, hzero, ?_⟩
      show cd = if sc = 0 ∧ wc + 1 = 0 then 1 else 0
      rw [hd, if_neg (show ¬(sc = 0 ∧ wc = 0) by omega),
        if_neg (show ¬(sc = 0 ∧ wc + 1 = 0) by omega)]
  | moveWeak =>
      exact ⟨rfl, rfl, rfl, hpos, hzero, hd⟩
  | dtorWeak =>
      have hv' : 0 < wc := hv
      have hcd : cd = 0 := by
        rw [hd, if_neg (show ¬(sc = 0 ∧ wc = 0) by omega)]
      subst hcd
      simp only [stepOp, weakDtorBlock_eq]
      split_ifs with hg
      · refine ⟨rfl, rfl, rfl, fun h => absurd h (show ¬(0 < sc) by omega),
          fun _ => hzero hg.1, ?_⟩
        show (0:Nat) + 1 = if sc = 0 ∧ wc - 1 = 0 then 1 else 0
        rw [if_pos hg]
      · refine ⟨rfl, rfl, rfl, hpos, hzero, ?_⟩
        show (0:Nat) = if sc = 0 ∧ wc - 1 = 0 then 1 else 0
        rw [if_neg hg]
  | lockWeak =>
      have hv' : 0 < wc := hv
      simp only [stepOp]
      by_cases hsc : sc = 0
      · rw [if_pos hsc]
        exact ⟨rfl, rfl, rfl, hpos, hzero, hd⟩
      · rw [if_neg hsc]
        refine ⟨rfl, rfl, rfl, fun _ => hpos (by omega),
          fun h => absurd h (Nat.succ_ne_zero sc), ?_⟩
        show cd = if sc + 1 = 0 ∧ wc = 0 then 1 else 0
        rw [hd, if_neg (show ¬(sc = 0 ∧ wc = 0) by omega),
          if_neg (show ¬(sc + 1 = 0 ∧ wc = 0) by omega)]

/-- Every reachable trace state satisfies the lifecycle invariant. -/
theorem reachable_inv (k : BlockKind) (p : Nat) (s : TraceState)
    (hR : Reachable k p s) : Inv k p s := by
  induction hR with
  | here => exact inv_init k p
  | there s op hR hv ih => exact inv_step k p s op ih hv

/-- C1: along every valid sequence of strong-owner and weak-observer
constructions and destructions on one control block, `deallocate_block` has
run at most once; it has run exactly once precisely when `destroy_ptr` has
completed and both `shared_count` and `weak_count` are zero; and once all
owners and observers are gone (in either order of the strong side or the
weak side reaching zero first) it has run exactly once. -/
theorem spec_C1_deallocate_exactly_once (k : BlockKind) (p : Nat)
    (s : TraceState) (hR : Reachable k p s) :
    s.cb.deallocCalls ≤ 1 ∧
    (s.cb.deallocCalls = 1 ↔
      s.cb.destroyArgs.length = 1 ∧ s.cb.shared_count = 0 ∧
        s.cb.weak_count = 0) ∧
    (s.liveS = 0 ∧ s.liveW = 0 → s.cb.deallocCalls = 1) := by
  obtain ⟨hk, hs, hw, hpos, hzero, hd⟩ := reachable_inv k p s hR
  by_cases hc : s.liveS = 0 ∧ s.liveW = 0
  · obtain ⟨hargs, hptr⟩ := hzero hc.1
    rw [hd, if_pos hc, hargs]
    exact ⟨Nat.le_refl 1,
      ⟨fun _ => ⟨rfl, by omega, by omega⟩, fun _ => rfl⟩, fun _ => rfl⟩
  · rw [hd, if_neg hc]
    refine ⟨Nat.zero_le 1, ⟨fun h => absurd h (by omega), fun h => ?_⟩,
      fun h => absurd h hc⟩
    exact absurd ⟨by omega, by omega⟩ hc

theorem spec_C1_witness :
    c1state.cb.deallocCalls ≤ 1 ∧ c1state.cb.deallocCalls = 1 :=
  ⟨(spec_C1_deallocate_exactly_once BlockKind.regular 5 c1state
      (Reachable.there _ _ Reachable.here Nat.one_pos)).1,
   (spec_C1_deallocate_exactly_once BlockKind.regular 5 c1state
      (Reachable.there _ _ Reachable.here Nat.one_pos)).2.2 ⟨rfl, rfl⟩⟩

/-- C2: along every valid sequence of owner operations, the destruction
policy has run at most once; it has run exactly once precisely when
`shared_count` is zero; a strong-owner destruction runs it exactly when it
is the last live strong owner; and no other operation ever runs it. -/
theorem spec_C2_destroy_exactly_once (k : BlockKind) (p : Nat)
    (s : TraceState) (hR : Reachable k p s) :
    s.cb.destroyArgs.length ≤ 1 ∧
    (s.cb.destroyArgs.length = 1 ↔ s.cb.shared_count = 0) ∧
    (0 < s.liveS →
      ((stepOp s Op.dtorStrong).cb.destroyArgs =
          s.cb.destroyArgs ++ [some p] ↔ s.liveS = 1)) ∧
    (stepOp s Op.copyStrong).cb.destroyArgs = s.cb.destroyArgs ∧
    (stepOp s Op.ctorWeak).cb.destroyArgs = s.cb.destroyArgs ∧
    (stepOp s Op.dtorWeak).cb.destroyArgs = s.cb.destroyArgs ∧
    (stepOp s Op.lockWeak).cb.destroyArgs = s.cb.destroyArgs := by
  obtain ⟨L, W, ck, sc, wc, cp, ca, cd⟩ := s
  obtain ⟨hk, hs, hw, hpos, hzero, hd⟩ := reachable_inv k p _ hR
  simp only at hk hs hw hpos hzero hd
  subst hk
  subst hs
  subst hw
  refine ⟨?_, ?_, ?_, rfl, rfl, ?_, ?_⟩
  · by_cases h0 : sc = 0
    · obtain ⟨hargs, _⟩ := hzero h0
      show ca.length ≤ 1
      rw [hargs]
      exact Nat.le_refl 1
    · obtain ⟨hargs, _⟩ := hpos (by omega)
      show ca.length ≤ 1
      rw [hargs]
      exact Nat.zero_le 1
  · by_cases h0 : sc = 0
    · obtain ⟨hargs, _⟩ := hzero h0
      show ca.length = 1 ↔ sc = 0
      rw [hargs]
      exact iff_of_true rfl h0
    · obtain ⟨hargs, _⟩ := hpos (by omega)
      show ca.length = 1 ↔ sc = 0
      rw [hargs]
      exact iff_of_false (by decide) h0
  · intro hpos0
    have hsc0 : 0 < sc := hpos0
    obtain ⟨hargs, hptr⟩ := hpos hsc0
    subst hargs
    subst hptr
    show (sharedDtorBlock ⟨ck, sc, wc, some p, [], cd⟩).destroyArgs =
      [] ++ [some p] ↔ sc = 1
    rw [sharedDtorBlock_eq]
    split_ifs with h1 h2
    · exact iff_of_false (by simp) (by omega)
    · refine iff_of_true ?_ (by omega)
      show (BaseControlBlock.destroy_ptr
        ⟨ck, sc - 1, wc, some p, [], cd⟩).destroyArgs = [] ++ [some p]
      rw [destroy_ptr_destroyArgs]
    · refine iff_of_true ?_ (by omega)
      rw [destroy_ptr_destroyArgs]
  · show (weakDtorBlock ⟨ck, sc, wc, cp, ca, cd⟩).destroyArgs = ca
    rw [weakDtorBlock_eq]
    split_ifs <;> rfl
  · simp only [stepOp]
    split_ifs <;> rfl

theorem spec_C2_witness :
    (initState BlockKind.regular 5).cb.destroyArgs.length ≤ 1 ∧
    (stepOp (initState BlockKind.regular 5) Op.dtorStrong).cb.destroyArgs =
      (initState BlockKind.regular 5).cb.destroyArgs ++ [some 5] :=
  ⟨(spec_C2_destroy_exactly_once BlockKind.regular 5 _ Reachable.here).1,
   ((spec_C2_destroy_exactly_once BlockKind.regular 5 _
      Reachable.here).2.2.1 Nat.one_pos).mpr rfl⟩

/-- C3: at every observation point of every valid operation sequence,
`shared_count` equals the number of live strong owners bound to the block
(the ghost counter `liveS`), and `use_count` on any live owner bound to
that block returns that number. -/
theorem spec_C3_use_count_live_owners (k : BlockKind) (p : Nat)
    (s : TraceState) (hR : Reachable k p s)
    (sp : SharedPtr) (h : Heap) (i : Nat)
    (hsp : sp.block = some i) (hh : h i = s.cb) :
    s.cb.shared_count = s.liveS ∧
    SharedPtr.use_count sp h = some s.liveS := by
  obtain ⟨hk, hs, hw, hpos, hzero, hd⟩ := reachable_inv k p s hR
  refine ⟨hs, ?_⟩
  simp [SharedPtr.use_count, hsp, hh, hs]

theorem spec_C3_witness :
    (initState BlockKind.regular 5).cb.shared_count =
      (initState BlockKind.regular 5).liveS ∧
    SharedPtr.use_count ⟨some 5, some 0⟩ c3heap =
      some (initState BlockKind.regular 5).liveS :=
  spec_C3_use_count_live_owners BlockKind.regular 5 _ Reachable.here
    ⟨some 5, some 0⟩ c3heap 0 rfl rfl

/-- C4 counterexample: at a concrete two-block heap, weak move assignment
leaves the moved-from source still bound to its block (claim requires it to
become unbound) and raises that block's `weak_count` from 1 to 2 (claim
requires all counts unchanged); and strong move assignment lowers the
destination's previous block's `shared_count` from 2 to 1 (claim requires
all counts unchanged). -/
theorem spec_C4_counterexample :
    ((WeakPtr.moveAssign ⟨some 1⟩ ⟨some 0⟩ sampleHeap).getD
        mvDefault).2.1.block = some 0 ∧
    (((WeakPtr.moveAssign ⟨some 1⟩ ⟨some 0⟩ sampleHeap).getD
        mvDefault).2.2 0).weak_count = 2 ∧
    (sampleHeap 0).weak_count = 1 ∧
    ((SharedPtr.moveAssign ⟨some 11, some 1⟩ ⟨some 10, some 0⟩
        sampleHeap).2.2 1).shared_count = 1 ∧
    (sampleHeap 1).shared_count = 2 := by
  exact ⟨rfl, rfl, rfl, rfl, rfl⟩

/-- C4 amended: move CONSTRUCTION of a strong owner or a weak observer
changes neither count of any block and leaves the source unbound.  Strong
move ASSIGNMENT empties the source and leaves the source's block untouched,
but releases the destination's previous block by running the strong
destructor protocol on it.  Weak move assignment, as coded
(`auto copy = other` invokes the copy constructor), behaves as copy
assignment: the source stays bound and its block's `weak_count` is
incremented, while the destination's previous block undergoes the weak
destructor protocol. -/
theorem spec_C4_amended_moves (spo : SharedPtr) (wo : WeakPtr)
    (self other : SharedPtr) (wself wother : WeakPtr)
    (h : Heap) (i j : Nat)
    (hself : self.block = some j) (hother : other.block = some i)
    (hwself : wself.block = some j) (hwother : wother.block = some i)
    (hij : i ≠ j) :
    SharedPtr.moveCtor spo h = (⟨spo.ptr, spo.block⟩, ⟨none, none⟩, h) ∧
    WeakPtr.moveCtor wo h = (⟨wo.block⟩, ⟨none⟩, h) ∧
    SharedPtr.moveAssign self other h =
      (⟨other.ptr, other.block⟩, ⟨none, none⟩, SharedPtr.dtor self h) ∧
    SharedPtr.dtor self h i = h i ∧
    SharedPtr.dtor self h j = sharedDtorBlock (h j) ∧
    WeakPtr.moveAssign wself wother h =
      some (⟨some i⟩, wother,
        Heap.update
          (Heap.update h i { h i with weak_count := (h i).weak_count + 1 })
          j (weakDtorBlock (h j))) ∧
    wother.block = some i := by
  obtain ⟨sp1, sb⟩ := self
  obtain ⟨wsb⟩ := wself
  obtain ⟨wob⟩ := wother
  simp only at hself hwself hwother
  subst hself
  subst hwself
  subst hwother
  have hji : j ≠ i := Ne.symm hij
  refine ⟨rfl, rfl, rfl, ?_, ?_, ?_, rfl⟩
  · exact Heap.update_ne h j (sharedDtorBlock (h j)) i hij
  · exact Heap.update_self h j (sharedDtorBlock (h j))
  · have harg : (Heap.update h i
        { h i with weak_count := (h i).weak_count + 1 }) j = h j :=
      Heap.update_ne h i { h i with weak_count := (h i).weak_count + 1 } j hji
    rw [← harg]
    rfl

theorem spec_C4_amended_witness :
    SharedPtr.moveCtor ⟨some 7, some 0⟩ sampleHeap =
      (⟨some 7, some 0⟩, ⟨none, none⟩, sampleHeap) ∧
    WeakPtr.moveCtor ⟨some 0⟩ sampleHeap =
      (⟨some 0⟩, ⟨none⟩, sampleHeap) ∧
    SharedPtr.moveAssign ⟨some 11, some 1⟩ ⟨some 10, some 0⟩ sampleHeap =
      (⟨some 10, some 0⟩, ⟨none, none⟩,
        SharedPtr.dtor ⟨some 11, some 1⟩ sampleHeap) ∧
    SharedPtr.dtor ⟨some 11, some 1⟩ sampleHeap 0 = sampleHeap 0 ∧
    SharedPtr.dtor ⟨some 11, some 1⟩ sampleHeap 1 =
      sharedDtorBlock (sampleHeap 1) ∧
    WeakPtr.moveAssign ⟨some 1⟩ ⟨some 0⟩ sampleHeap =
      some (⟨some 0⟩, ⟨some 0⟩,
        Heap.update
          (Heap.update sampleHeap 0
            { sampleHeap 0 with weak_count := (sampleHeap 0).weak_count + 1 })
          1 (weakDtorBlock (sampleHeap 1))) ∧
    (⟨some 0⟩ : WeakPtr).block = some 0 :=
  spec_C4_amended_moves ⟨some 7, some 0⟩ ⟨some 0⟩
    ⟨some 11, some 1⟩ ⟨some 10, some 0⟩ ⟨some 1⟩ ⟨some 0⟩
    sampleHeap 0 1 rfl rfl rfl rfl (by decide)

/-- C5: on a weak observer bound to block `i`, if the block is not expired
then `lock` returns a strong owner bound to the same block and pointing at
the block's object, with only that block's `shared_count` incremented by
exactly one; if the block is expired then `lock` returns an empty owner and
the heap is unchanged. -/
theorem spec_C5_lock (w : WeakPtr) (h : Heap) (i : Nat)
    (hw : w.block = some i) :
    (0 < (h i).shared_count →
      WeakPtr.lock w h =
        some (⟨(h i).ptr, some i⟩,
          Heap.update h i
            { h i with shared_count := (h i).shared_count + 1 })) ∧
    ((h i).shared_count = 0 →
      WeakPtr.lock w h = some (⟨none, none⟩, h)) := by
  obtain ⟨wb⟩ := w
  simp only at hw
  subst hw
  constructor
  · intro hpos
    have hbeq : ((h i).shared_count == 0) = false :=
      beq_eq_false_iff_ne.mpr (by omega)
    simp [WeakPtr.lock, WeakPtr.expired, SharedPtr.ctorFromWeak,
      BaseControlBlock.get_ptr, hbeq]
  · intro h0
    have hbeq : ((h i).shared_count == 0) = true := beq_iff_eq.mpr h0
    simp [WeakPtr.lock, WeakPtr.expired, hbeq]

theorem spec_C5_witness :
    WeakPtr.lock ⟨some 0⟩ sampleHeap =
      some (⟨(sampleHeap 0).ptr, some 0⟩,
        Heap.update sampleHeap 0
          { sampleHeap 0 with
              shared_count := (sampleHeap 0).shared_count + 1 }) :=
  (spec_C5_lock ⟨some 0⟩ sampleHeap 0 rfl).1 (by decide)

/-- C6: for a live weak observer bound to the block, `expired` returns true
exactly when no live strong owner remains; and while an observer is alive
with no strong owner left, the block has not been deallocated. -/
theorem spec_C6_expired_iff (k : BlockKind) (p : Nat) (s : TraceState)
    (hR : Reachable k p s) (w : WeakPtr) (h : Heap) (i : Nat)
    (hw : w.block = some i) (hh : h i = s.cb) :
    (WeakPtr.expired w h = some true ↔ s.liveS = 0) ∧
    (0 < s.liveW → s.liveS = 0 → s.cb.deallocCalls = 0) := by
  obtain ⟨hk, hs, hwc, hpos, hzero, hd⟩ := reachable_inv k p s hR
  constructor
  · simp [WeakPtr.expired, hw, hh, hs]
  · intro hW0 hS0
    rw [hd, if_neg (show ¬(s.liveS = 0 ∧ s.liveW = 0) by omega)]

theorem spec_C6_witness :
    WeakPtr.expired ⟨some 0⟩ c6heap = some true ∧
    c6state.cb.deallocCalls = 0 :=
  ⟨((spec_C6_expired_iff BlockKind.regular 5 c6state
      (Reachable.there _ _ (Reachable.there _ _ Reachable.here
        (Or.inl Nat.one_pos)) Nat.one_pos)
      ⟨some 0⟩ c6heap 0 rfl rfl).1).mpr rfl,
   (spec_C6_expired_iff BlockKind.regular 5 c6state
      (Reachable.there _ _ (Reachable.there _ _ Reachable.here
        (Or.inl Nat.one_pos)) Nat.one_pos)
      ⟨some 0⟩ c6heap 0 rfl rfl).2 Nat.one_pos rfl⟩

/-- C7: copy-constructing a strong owner from an owner bound to block `i`
binds the copy to the same block and pointer and increments only that
block's `shared_count` by one; copy-constructing from an empty owner yields
an empty owner and leaves the heap unchanged. -/
theorem spec_C7_copy (other : SharedPtr) (h : Heap) (i : Nat) :
    (other.block = some i →
      SharedPtr.copyCtor other h =
        (⟨other.ptr, some i⟩,
         Heap.update h i
           { h i with shared_count := (h i).shared_count + 1 })) ∧
    (other.block = none →
      SharedPtr.copyCtor other h = (⟨other.ptr, none⟩, h)) := by
  constructor
  · intro hb
    simp [SharedPtr.copyCtor, hb]
  · intro hb
    simp [SharedPtr.copyCtor, hb]

theorem spec_C7_witness :
    SharedPtr.copyCtor ⟨some 7, some 0⟩ sampleHeap =
      (⟨some 7, some 0⟩,
       Heap.update sampleHeap 0
         { sampleHeap 0 with
             shared_count := (sampleHeap 0).shared_count + 1 }) :=
  (spec_C7_copy ⟨some 7, some 0⟩ sampleHeap 0).1 rfl

/-- C8: for a regular block created from raw pointer `p` with a custom
destruction policy, while strong owners remain alive the policy has not
been invoked, and once the last strong owner is destroyed the policy has
been invoked exactly once, with exactly the original pointer value `p`. -/
theorem spec_C8_custom_deleter (p : Nat) (s : TraceState)
    (hR : Reachable BlockKind.regular p s) :
    (0 < s.liveS → s.cb.destroyArgs = []) ∧
    (s.liveS = 0 → s.cb.destroyArgs = [some p]) := by
  obtain ⟨hk, hs, hw, hpos, hzero, hd⟩ :=
    reachable_inv BlockKind.regular p s hR
  exact ⟨fun h => (hpos h).1, fun h => (hzero h).1⟩

theorem spec_C8_witness :
    c8state.cb.destroyArgs = [some 7] :=
  (spec_C8_custom_deleter 7 c8state
    (Reachable.there _ _ Reachable.here Nat.one_pos)).2 rfl

/-- C9: in both constructors, the allocator's `allocate` is the first
fallible step: if it fails the error propagates and the heap is untouched
(no block and, on the combined path, no object is constructed); if it
succeeds the resulting block is fully constructed in one step, with
`shared_count = 1`, `weak_count = 0`, the object registered, and no
destruction or deallocation recorded. -/
theorem spec_C9_allocation_all_or_nothing (p : Nat) (h : Heap) (i : Nat) :
    SharedPtr.ctorFromRaw p (Except.error ()) h = (Except.error (), h) ∧
    SharedPtr.ctorAllocateShared (Except.error ()) h = (Except.error (), h) ∧
    (SharedPtr.ctorFromRaw p (Except.ok i) h).1 =
      Except.ok ⟨some p, some i⟩ ∧
    (SharedPtr.ctorFromRaw p (Except.ok i) h).2 i =
      ⟨BlockKind.regular, 1, 0, some p, [], 0⟩ ∧
    (SharedPtr.ctorAllocateShared (Except.ok i) h).1 =
      Except.ok ⟨some i, some i⟩ ∧
    (SharedPtr.ctorAllocateShared (Except.ok i) h).2 i =
      ⟨BlockKind.makeShared, 1, 0, some i, [], 0⟩ := by
  refine ⟨rfl, rfl, rfl, ?_, rfl, ?_⟩
  · exact Heap.update_self h i ⟨BlockKind.regular, 1, 0, some p, [], 0⟩
  · exact Heap.update_self h i ⟨BlockKind.makeShared, 1, 0, some i, [], 0⟩

/-- C10: destroying an empty strong owner or an unbound weak observer is a
no-op: the heap (hence every block's counts and the ghost records of
`destroy_ptr` and `deallocate_block` calls) is unchanged. -/
theorem spec_C10_empty_dtor_noop (sp : SharedPtr) (w : WeakPtr) (h : Heap)
    (hsp : sp.block = none) (hw : w.block = none) :
    SharedPtr.dtor sp h = h ∧ WeakPtr.dtor w h = h := by
  constructor
  · simp [SharedPtr.dtor, hsp]
  · simp [WeakPtr.dtor, hw]

theorem spec_C10_witness :
    SharedPtr.dtor ⟨some 3, none⟩ sampleHeap = sampleHeap ∧
    WeakPtr.dtor ⟨none⟩ sampleHeap = sampleHeap :=
  spec_C10_empty_dtor_noop ⟨some 3, none⟩ ⟨none⟩ sampleHeap rfl rfl

end SmartPointers
